import Mathlib

/-!
# Maxine VM substrate clock primitives (`substrate/time.c`)

A shallow embedding of `native_nanoTime` and `native_currentTimeMillis`.

* C integers are mathematical integers, and every conversion to a fixed-width
  type is an explicit wrap (`wrapS` for signed, `wrapU` for unsigned types).
* C `/` and `%` on signed operands are `Int.tdiv` and `Int.tmod` (truncation
  towards zero).
* The answers of the operating system during one call (what `gettimeofday`,
  `dlopen`, `mach_timebase_info`, ... hand back) are gathered in an
  environment record; the `static` variables of a function are an explicit
  state record that is passed in and returned.
* A call of the Linux or Darwin branch of `native_nanoTime` also returns the
  list of system calls it performed, in order.
-/

namespace MaxineTime

/-! ## Machine integers -/

/-- Conversion to a signed two's-complement type of `w` bits. -/
def wrapS (w : Nat) (x : Int) : Int :=
  (x + 2 ^ (w - 1)) % 2 ^ w - 2 ^ (w - 1)

/-- Conversion to an unsigned type of `w` bits. -/
def wrapU (w : Nat) (x : Int) : Int :=
  x % 2 ^ w

/-- Conversion to `jlong` (signed, 64 bits). -/
def toJlong (x : Int) : Int := wrapS 64 x

/-- Conversion to `uint64_t`. -/
def toU64 (x : Int) : Int := wrapU 64 x

/-- Conversion to `int` (signed, 32 bits on every platform the file builds for). -/
def toCInt (x : Int) : Int := wrapS 32 x

/-! ## Shared data -/

/-- Build target selected by the `os_*` preprocessor symbols. -/
inductive OS where
  | solaris
  | darwin
  | linux
  | windows
  | other
  deriving DecidableEq

/-- The contents of a `struct timeval`. -/
structure Timeval where
  tv_sec : Int
  tv_usec : Int
  deriving DecidableEq

/-- The contents of a `struct timespec`. -/
structure Timespec where
  tv_sec : Int
  tv_nsec : Int
  deriving DecidableEq

/-- System calls the Linux and Darwin branches of `native_nanoTime` may perform. -/
inductive Syscall where
  | mach_timebase_info
  | mach_absolute_time
  | dlopen_librt_so_1
  | dlopen_librt_so
  | dlsym_clock_gettime
  | clock_gettime
  | dlclose
  | gettimeofday
  deriving DecidableEq

/-- Abnormal termination of the process. -/
inductive Fatal where
  | assertionFailed
  deriving DecidableEq

/-- Modelled from the spec: the `c_ASSERT` macro, which is declared in a header
that is not part of this file. The spec describes it as "asserts success and
treats failure as fatal (process-terminating) rather than recoverable": a true
condition lets the caller go on, a false one ends the process. -/
def c_ASSERT (condition : Bool) : Except Fatal Unit :=
  if condition then .ok () else .error Fatal.assertionFailed

/-! ## `native_currentTimeMillis` -/

/-- The `#if os_SOLARIS || os_DARWIN || os_LINUX || os_WINDOWS` guard. -/
def OS.hasGettimeofday : OS → Bool
  | .other => false
  | _ => true

/-- `native_currentTimeMillis`, as a function of the `tv` that `gettimeofday`
filled in:
`return ((jlong) tv.tv_sec * 1000) + ((jlong) tv.tv_usec / 1000);`
and `return 1;` where no wall clock is configured. -/
def native_currentTimeMillis (os : OS) (tv : Timeval) : Int :=
  if os.hasGettimeofday then
    toJlong (toJlong (toJlong tv.tv_sec * 1000) + Int.tdiv (toJlong tv.tv_usec) 1000)
  else
    1

/-! ## `native_nanoTime`: common shape of a call -/

/-- What one call of a clock primitive leaves behind: the new contents of the
function's `static` variables, the system calls performed in order, and either
the returned `jlong` or the reason the process ended. -/
structure Outcome (σ : Type) where
  statics : σ
  calls : List Syscall
  result : Except Fatal Int

/-- A C pointer; `0` is `NULL`. -/
abbrev Ptr := Nat

/-! ## `native_nanoTime` on Solaris and on unsupported targets -/

/-- `#if os_SOLARIS`: `return gethrtime();` (`hrtime_t` is a 64-bit signed type). -/
def native_nanoTime_solaris (hrtime : Int) : Int := toJlong hrtime

/-- The last `#else`: `return 1;`. -/
def native_nanoTime_other : Int := 1

/-! ## `native_nanoTime` on Linux -/

/-- The two `static` variables of the Linux branch. -/
structure LinuxStatics where
  clock_gettime_func : Ptr
  initialized : Int
  deriving DecidableEq

/-- Their values at process start: `clock_gettime_func = NULL`, `initialized = 0`. -/
def LinuxStatics.start : LinuxStatics := { clock_gettime_func := 0, initialized := 0 }

/-- What the system would answer during one call on Linux. A field is only
looked at when the call in question is made. -/
structure LinuxEnv where
  /-- The handle `dlopen("librt.so.1", RTLD_LAZY)` returns. -/
  dlopen_librt_so_1 : Ptr
  /-- The handle `dlopen("librt.so", RTLD_LAZY)` returns. -/
  dlopen_librt_so : Ptr
  /-- The address `dlsym(handle, "clock_gettime")` returns. -/
  dlsym_clock_gettime : Ptr
  /-- The status of the probing `clock_gettime_func(CLOCK_MONOTONIC, &tp)`. -/
  probe_status : Int
  /-- The reading stored by the measuring `clock_gettime_func(CLOCK_MONOTONIC, &tp)`. -/
  tp : Timespec
  /-- The status `gettimeofday(&time, NULL)` returns. -/
  gettimeofday_status : Int
  /-- The contents of `time` after `gettimeofday`. -/
  time : Timeval

/-- The `if (!initialized) { ... }` block: new statics and the calls made. -/
def linux_init_block (st : LinuxStatics) (env : LinuxEnv) : LinuxStatics × List Syscall :=
  if st.initialized = 0 then
    let st1 : LinuxStatics := { st with initialized := 1 }
    let handle0 := env.dlopen_librt_so_1
    let handle := if handle0 = 0 then env.dlopen_librt_so else handle0
    let opened : List Syscall :=
      if handle0 = 0 then [.dlopen_librt_so_1, .dlopen_librt_so] else [.dlopen_librt_so_1]
    if handle ≠ 0 then
      let st2 : LinuxStatics := { st1 with clock_gettime_func := env.dlsym_clock_gettime }
      if st2.clock_gettime_func ≠ 0 then
        if env.probe_status ≠ 0 then
          ({ st2 with clock_gettime_func := 0 },
            opened ++ [.dlsym_clock_gettime, .clock_gettime, .dlclose])
        else
          (st2, opened ++ [.dlsym_clock_gettime, .clock_gettime])
      else
        (st2, opened ++ [.dlsym_clock_gettime])
    else
      (st1, opened)
  else
    (st, [])

/-- The value returned on the `clock_gettime` path. With `arm` defined:
`((long long) tp.tv_sec) * (1000 * 1000 * 1000) + (long long) tp.tv_nsec`,
otherwise the same expression with `jlong` casts. -/
def linux_monotonic (arm : Bool) (tp : Timespec) : Int :=
  if arm then
    wrapS 64 (wrapS 64 (wrapS 64 tp.tv_sec * toCInt (1000 * 1000 * 1000)) + wrapS 64 tp.tv_nsec)
  else
    toJlong (toJlong (toJlong tp.tv_sec * toCInt (1000 * 1000 * 1000)) + toJlong tp.tv_nsec)

/-- The value the Linux fallback computes from the `gettimeofday` reading:
`jlong usecs = ((jlong) time.tv_sec) * (1000 * 1000) + (jlong) time.tv_usec;`
`return 1000 * usecs;` -/
def linux_fallback_nanos (time : Timeval) : Int :=
  let usecs := toJlong (toJlong (toJlong time.tv_sec * toCInt (1000 * 1000)) + toJlong time.tv_usec)
  toJlong (1000 * usecs)

/-- The `gettimeofday` fallback of the Linux branch:
`c_ASSERT(status != -1);`
`jlong usecs = ((jlong) time.tv_sec) * (1000 * 1000) + (jlong) time.tv_usec;`
`return 1000 * usecs;` -/
def linux_fallback (status : Int) (time : Timeval) : Except Fatal Int :=
  match c_ASSERT (status != -1) with
  | .error e => .error e
  | .ok () => .ok (linux_fallback_nanos time)

/-- `native_nanoTime` under `os_LINUX`. -/
def native_nanoTime_linux (arm : Bool) (st : LinuxStatics) (env : LinuxEnv) :
    Outcome LinuxStatics :=
  let r := linux_init_block st env
  if r.1.clock_gettime_func ≠ 0 then
    { statics := r.1, calls := r.2 ++ [.clock_gettime],
      result := .ok (linux_monotonic arm env.tp) }
  else
    { statics := r.1, calls := r.2 ++ [.gettimeofday],
      result := linux_fallback env.gettimeofday_status env.time }

/-! ## `native_nanoTime` on Darwin -/

/-- The `double` operations the Darwin branch uses. The embedding does not fix
a model of IEEE arithmetic: the branch is defined over any carrier offering
these operations, and the only law assumed is that `0.0 != 0.0` is false. -/
structure DoubleArith where
  /-- The values of type `double`. -/
  D : Type
  /-- The constant `0.0`. -/
  zero : D
  /-- The quotient `(double)numer / (double)denom` of two `uint32_t` values. -/
  div : Nat → Nat → D
  /-- The test `x != 0.0`. -/
  neZero : D → Bool
  /-- The product `ticks * x` of a `uint64_t` and a `double`, converted to `jlong`. -/
  mulToJlong : Int → D → Int
  /-- The test `0.0 != 0.0` is false. -/
  neZero_zero : neZero zero = false

/-- An idealised instance for evaluation: a `double` is an unevaluated ratio
`numer / denom`; a ratio with denominator zero stands for an infinity or a NaN
(both differ from `0.0`) and its product is taken to be `0`. -/
def ratioArith : DoubleArith where
  D := Nat × Nat
  zero := (0, 1)
  div := fun n d => (n, d)
  neZero := fun x => !(x.1 == 0 && x.2 != 0)
  mulToJlong := fun t x => if x.2 = 0 then 0 else toJlong (Int.tdiv (t * x.1) x.2)
  neZero_zero := rfl

/-- The contents of a `struct mach_timebase_info` (two `uint32_t`). -/
structure MachTimebaseInfo where
  numer : Nat
  denom : Nat
  deriving DecidableEq

/-- The three `static` variables of the Darwin branch. -/
structure DarwinStatics (F : DoubleArith) where
  timebase : MachTimebaseInfo
  factor : F.D
  failed : Int

/-- Their values at process start: `timebase = { 0, 0 }`, `factor = 0.0`, `failed = 0`. -/
def DarwinStatics.start (F : DoubleArith) : DarwinStatics F :=
  { timebase := { numer := 0, denom := 0 }, factor := F.zero, failed := 0 }

/-- The value of `KERN_SUCCESS` in `<mach/kern_return.h>`. -/
def KERN_SUCCESS : Int := 0

/-- What the system would answer during one call on Darwin. -/
structure DarwinEnv where
  /-- The status `mach_timebase_info(&temp)` returns. -/
  kern_return : Int
  /-- The contents of the local `temp` once `mach_timebase_info` has returned
  (whatever the uninitialised local held when the query wrote nothing). -/
  temp : MachTimebaseInfo
  /-- The value `mach_absolute_time()` returns. -/
  mach_absolute_time : Nat
  /-- The status `gettimeofday(&tv, NULL)` returns; the branch discards it. -/
  gettimeofday_status : Int
  /-- The contents of `tv` after `gettimeofday`. -/
  tv : Timeval

/-- The `if (timebase.denom == 0) { ... }` block: new statics and the calls made. -/
def darwin_init_block (F : DoubleArith) (st : DarwinStatics F) (env : DarwinEnv) :
    DarwinStatics F × List Syscall :=
  if st.timebase.denom = 0 then
    if st.failed = 0 then
      if env.kern_return ≠ KERN_SUCCESS then
        ({ st with factor := F.div env.temp.numer env.temp.denom, timebase := env.temp },
          [.mach_timebase_info])
      else
        ({ st with timebase := { numer := 0, denom := 0 }, failed := 1 },
          [.mach_timebase_info])
    else
      (st, [])
  else
    (st, [])

/-- The `gettimeofday` fallback of the Darwin branch:
`(uint64_t)tv.tv_sec * (uint64_t)(1000 * 1000 * 1000) + (uint64_t)(tv.tv_usec * 1000)`
converted to `jlong` by the `return`. The product `tv.tv_usec * 1000` is computed
in `int` (Darwin declares `tv_usec` as a 32-bit integer). -/
def darwin_fallback (tv : Timeval) : Int :=
  toJlong (toU64 (toU64 (toU64 tv.tv_sec * toU64 (toCInt (1000 * 1000 * 1000)))
    + toU64 (toCInt (toCInt tv.tv_usec * 1000))))

/-- `native_nanoTime` under `os_DARWIN`. -/
def native_nanoTime_darwin (F : DoubleArith) (st : DarwinStatics F) (env : DarwinEnv) :
    Outcome (DarwinStatics F) :=
  let r := darwin_init_block F st env
  if r.1.timebase.denom = 1 ∧ r.1.timebase.numer = 1 then
    { statics := r.1, calls := r.2 ++ [.mach_absolute_time],
      result := .ok (toJlong (toU64 env.mach_absolute_time)) }
  else if F.neZero r.1.factor then
    { statics := r.1, calls := r.2 ++ [.mach_absolute_time],
      result := .ok (F.mulToJlong (toU64 env.mach_absolute_time) r.1.factor) }
  else
    { statics := r.1, calls := r.2 ++ [.gettimeofday],
      result := .ok (darwin_fallback env.tv) }

/-! ## Windows: the emulated `gettimeofday` and `clock_gettime`, `native_nanoTime` -/

/-- `static const uint64_t EPOCH = ((uint64_t) 116444736000000000ULL);` -/
def EPOCH : Int := toU64 116444736000000000

/-- What `GetSystemTime` and `SystemTimeToFileTime` hand to the emulated
`gettimeofday`: the two `DWORD` halves of the `FILETIME` and the `WORD`
`wMilliseconds` of the `SYSTEMTIME`. -/
structure WindowsTime where
  dwLowDateTime : Nat
  dwHighDateTime : Nat
  wMilliseconds : Nat
  deriving DecidableEq

/-- The 64-bit count a `FILETIME` stands for. -/
def WindowsTime.fileTime (t : WindowsTime) : Int :=
  (t.dwLowDateTime : Int) + (t.dwHighDateTime : Int) * 2 ^ 32

/-- The emulated `gettimeofday(struct timeval * tp)` of the Windows build: the
contents of `*tp` on return (the status is always `0`). `longBits` is the width
of the C type `long`, which the file takes from the compiler: 32 on Windows.
`time = (uint64_t)lo; time += ((uint64_t)hi) << 32;`
`tp->tv_sec = (long) ((time - EPOCH) / 10000000L);`
`tp->tv_usec = (long) (system_time.wMilliseconds * 1000);` -/
def gettimeofday_windows (longBits : Nat) (t : WindowsTime) : Timeval :=
  let time0 := toU64 t.dwLowDateTime
  let time := toU64 (time0 + toU64 (toU64 t.dwHighDateTime * 2 ^ 32))
  { tv_sec := wrapS longBits (Int.tdiv (toU64 (time - EPOCH)) (toU64 10000000))
    tv_usec := wrapS longBits (toCInt (toCInt t.wMilliseconds * 1000)) }

/-- The width of `long` on Windows (the LLP64 data model). -/
def windowsLongBits : Nat := 32

/-- `native_currentTimeMillis` under `os_WINDOWS`: the shared return expression
applied to what the emulated `gettimeofday` stored. -/
def native_currentTimeMillis_windows (longBits : Nat) (t : WindowsTime) : Int :=
  native_currentTimeMillis OS.windows (gettimeofday_windows longBits t)

/-- The emulated `clock_gettime(int x, struct timespec *spec)` of the Windows
build, as a function of the `__int64 wintime` that `GetSystemTimeAsFileTime`
filled in. `timeBits` is the width of `time_t`, `longBits` the width of `long`.
`wintime -= (int64_t)116444736000000000;`
`spec->tv_sec = wintime / (int64_t)10000000;`
`spec->tv_nsec = wintime % (int64_t)10000000 * 100;` -/
def clock_gettime_windows (timeBits longBits : Nat) (wintime : Int) : Timespec :=
  let w := wrapS 64 (wrapS 64 wintime - wrapS 64 116444736000000000)
  { tv_sec := wrapS timeBits (Int.tdiv w (wrapS 64 10000000))
    tv_nsec := wrapS longBits (wrapS 64 (Int.tmod w (wrapS 64 10000000) * 100)) }

/-- `native_nanoTime` under `os_WINDOWS`:
`clock_gettime(1, &time); return time.tv_nsec;` -/
def native_nanoTime_windows (timeBits longBits : Nat) (wintime : Int) : Int :=
  toJlong (clock_gettime_windows timeBits longBits wintime).tv_nsec

/-! ## Wall-clock nanoseconds as the specification words them -/

/-- The specification's "wall-clock-derived nanosecond value
(seconds×1e9 + microseconds×1000)", over the integers. -/
def specWallClockNanos (tv : Timeval) : Int :=
  tv.tv_sec * 10 ^ 9 + tv.tv_usec * 1000

/-! ## Sequences of calls and path predicates (Linux) -/

/-- Successive calls of `native_nanoTime` on Linux, the statics threaded from
one call to the next; the process ends with a call that does not return. -/
def linux_run (arm : Bool) : LinuxStatics → List LinuxEnv → List (Outcome LinuxStatics)
  | _, [] => []
  | st, env :: rest =>
    let o := native_nanoTime_linux arm st env
    match o.result with
    | .error _ => [o]
    | .ok _ => o :: linux_run arm o.statics rest

/-- The primary path of the Linux branch: either this is the first call and a
library loads, `clock_gettime` resolves and the probe succeeds, or an earlier
call has left a resolved `clock_gettime_func` behind. -/
def linuxPrimary (st : LinuxStatics) (env : LinuxEnv) : Prop :=
  (st = LinuxStatics.start
      ∧ (env.dlopen_librt_so_1 ≠ 0 ∨ env.dlopen_librt_so ≠ 0)
      ∧ env.dlsym_clock_gettime ≠ 0 ∧ env.probe_status = 0)
    ∨ (st.initialized ≠ 0 ∧ st.clock_gettime_func ≠ 0)

instance (st : LinuxStatics) (env : LinuxEnv) : Decidable (linuxPrimary st env) := by
  unfold linuxPrimary
  infer_instance

/-- The first call cannot set up the primary source: both `dlopen` attempts
fail, or `dlsym` fails, or the probe returns non-zero. -/
def linuxPrimaryFails (env : LinuxEnv) : Prop :=
  (env.dlopen_librt_so_1 = 0 ∧ env.dlopen_librt_so = 0)
    ∨ env.dlsym_clock_gettime = 0 ∨ env.probe_status ≠ 0

instance (env : LinuxEnv) : Decidable (linuxPrimaryFails env) := by
  unfold linuxPrimaryFails
  infer_instance

/-- The statics once the primary source has been given up. -/
def LinuxStatics.disabled : LinuxStatics := { clock_gettime_func := 0, initialized := 1 }

/-- Lexicographic order on monotonic readings. -/
def Timespec.le (a b : Timespec) : Prop :=
  a.tv_sec < b.tv_sec ∨ (a.tv_sec = b.tv_sec ∧ a.tv_nsec ≤ b.tv_nsec)

instance (a b : Timespec) : Decidable (Timespec.le a b) := by
  unfold Timespec.le
  infer_instance

/-- A Linux environment in which `librt.so.1` loads, `clock_gettime` resolves,
the probe succeeds and the monotonic clock reads `tp`. -/
def linuxEnvReading (tp : Timespec) : LinuxEnv :=
  { dlopen_librt_so_1 := 4096, dlopen_librt_so := 0, dlsym_clock_gettime := 8192,
    probe_status := 0, tp := tp, gettimeofday_status := 0, time := ⟨0, 0⟩ }

/-- A Linux environment in which no library loads and the wall clock reads `time`
with the given status. -/
def linuxEnvNoLibrary (status : Int) (time : Timeval) : LinuxEnv :=
  { dlopen_librt_so_1 := 0, dlopen_librt_so := 0, dlsym_clock_gettime := 0,
    probe_status := 0, tp := ⟨0, 0⟩, gettimeofday_status := status, time := time }

/-- A Darwin environment: the ratio query returns `kr` with `temp` holding
`numer / denom`, the tick counter reads `raw`, and `gettimeofday` returns
`status` with the reading `tv`. -/
def darwinEnv (kr : Int) (numer denom raw : Nat) (status : Int) (tv : Timeval) : DarwinEnv :=
  { kern_return := kr, temp := { numer := numer, denom := denom },
    mach_absolute_time := raw, gettimeofday_status := status, tv := tv }

/-- The value of `KERN_FAILURE` in `<mach/kern_return.h>`. -/
def KERN_FAILURE : Int := 5

/-! ## Lemmas on machine integers -/

theorem wrapS_64_of_range (x : Int) (h1 : -9223372036854775808 ≤ x)
    (h2 : x < 9223372036854775808) : wrapS 64 x = x := by
  unfold wrapS
  norm_num
  omega

theorem toJlong_of_range (x : Int) (h1 : -9223372036854775808 ≤ x)
    (h2 : x < 9223372036854775808) : toJlong x = x :=
  wrapS_64_of_range x h1 h2

theorem wrapU_64_of_range (x : Int) (h1 : 0 ≤ x)
    (h2 : x < 18446744073709551616) : wrapU 64 x = x := by
  unfold wrapU
  norm_num
  omega

theorem wrapS_32_of_range (x : Int) (h1 : -2147483648 ≤ x)
    (h2 : x < 2147483648) : wrapS 32 x = x := by
  unfold wrapS
  norm_num
  omega

/-- The millisecond computation without any wrap, for readings whose seconds
fit 32 bits and whose microseconds are below one second. -/
theorem currentTimeMillis_exact (os : OS) (tv : Timeval) (hos : os ≠ OS.other)
    (hs1 : -2147483648 ≤ tv.tv_sec) (hs2 : tv.tv_sec < 2147483648)
    (hu1 : 0 ≤ tv.tv_usec) (hu2 : tv.tv_usec < 1000000) :
    native_currentTimeMillis os tv = tv.tv_sec * 1000 + tv.tv_usec / 1000 := by
  have hg : os.hasGettimeofday = true := by
    cases os <;> first | rfl | exact absurd rfl hos
  unfold native_currentTimeMillis
  rw [if_pos hg]
  rw [toJlong_of_range tv.tv_sec (by omega) (by omega),
    toJlong_of_range tv.tv_usec (by omega) (by omega),
    toJlong_of_range (tv.tv_sec * 1000) (by omega) (by omega),
    Int.tdiv_eq_ediv hu1 (by norm_num)]
  exact toJlong_of_range _ (by omega) (by omega)

theorem wrapS_of_range (w : Nat) (hw : 1 ≤ w) (x : Int)
    (h1 : -(2 ^ (w - 1)) ≤ x) (h2 : x < 2 ^ (w - 1)) : wrapS w x = x := by
  unfold wrapS
  have hp : (2 : Int) ^ w = 2 * 2 ^ (w - 1) := by
    rw [← pow_succ']
    congr 1
    omega
  rw [Int.emod_eq_of_lt (by omega) (by omega)]
  omega

theorem two_pow_31_le (w : Nat) (hw : 32 ≤ w) : (2147483648 : Int) ≤ 2 ^ (w - 1) := by
  have h : (2 : Int) ^ 31 ≤ 2 ^ (w - 1) := pow_le_pow_right₀ (by norm_num) (by omega)
  norm_num at h
  exact h

theorem toCInt_billion : toCInt (1000 * 1000 * 1000) = 1000000000 := by
  decide

theorem toCInt_million : toCInt (1000 * 1000) = 1000000 := by
  decide

/-! ## Lemmas on the Linux branch -/

/-- The monotonic value without any wrap, when the whole sum fits 64 bits. -/
theorem linux_monotonic_exact (arm : Bool) (tp : Timespec)
    (hs : 0 ≤ tp.tv_sec) (hn1 : 0 ≤ tp.tv_nsec) (hn2 : tp.tv_nsec < 1000000000)
    (hfit : tp.tv_sec * 1000000000 + tp.tv_nsec < 9223372036854775808) :
    linux_monotonic arm tp = tp.tv_sec * 1000000000 + tp.tv_nsec := by
  have key : wrapS 64 (wrapS 64 (wrapS 64 tp.tv_sec * toCInt (1000 * 1000 * 1000))
      + wrapS 64 tp.tv_nsec) = tp.tv_sec * 1000000000 + tp.tv_nsec := by
    rw [toCInt_billion, wrapS_64_of_range tp.tv_sec (by omega) (by omega),
      wrapS_64_of_range tp.tv_nsec (by omega) (by omega),
      wrapS_64_of_range (tp.tv_sec * 1000000000) (by omega) (by omega)]
    exact wrapS_64_of_range _ (by omega) (by omega)
  unfold linux_monotonic toJlong
  cases arm <;> simpa using key

/-- On the primary path the initialisation block leaves a resolved pointer and
a set flag behind. -/
theorem linux_init_block_primary (st : LinuxStatics) (env : LinuxEnv)
    (h : linuxPrimary st env) :
    (linux_init_block st env).1.clock_gettime_func ≠ 0
      ∧ (linux_init_block st env).1.initialized ≠ 0 := by
  rcases h with ⟨hst, hopen, hsym, hprobe⟩ | ⟨hi, hf⟩
  · subst hst
    by_cases h1 : env.dlopen_librt_so_1 = 0
    · have h2 : env.dlopen_librt_so ≠ 0 := by
        rcases hopen with h | h
        · exact absurd h1 h
        · exact h
      simp [linux_init_block, LinuxStatics.start, h1, h2, hsym, hprobe]
    · simp [linux_init_block, LinuxStatics.start, h1, hsym, hprobe]
  · simp [linux_init_block, hi, hf]

/-- A call on the primary path reads the monotonic clock and keeps the path. -/
theorem nanoTime_linux_primary (arm : Bool) (st : LinuxStatics) (env : LinuxEnv)
    (h : linuxPrimary st env) :
    (native_nanoTime_linux arm st env).result = .ok (linux_monotonic arm env.tp)
      ∧ (native_nanoTime_linux arm st env).statics.clock_gettime_func ≠ 0
      ∧ (native_nanoTime_linux arm st env).statics.initialized ≠ 0 := by
  obtain ⟨hf, hi⟩ := linux_init_block_primary st env h
  have hg : ¬ (linux_init_block st env).1.clock_gettime_func = 0 := hf
  refine ⟨?_, ?_, ?_⟩
  · simp [native_nanoTime_linux, hg]
  · simp [native_nanoTime_linux, hg]
  · simpa [native_nanoTime_linux, hg] using hi

/-- When the primary source cannot be set up, the first call leaves the
disabled statics behind. -/
theorem linux_init_block_fails (env : LinuxEnv) (h : linuxPrimaryFails env) :
    (linux_init_block LinuxStatics.start env).1 = LinuxStatics.disabled := by
  by_cases h1 : env.dlopen_librt_so_1 = 0 <;> by_cases h2 : env.dlopen_librt_so = 0 <;>
    by_cases h3 : env.dlsym_clock_gettime = 0 <;> by_cases h4 : env.probe_status = 0 <;>
    simp [linuxPrimaryFails, h1, h2, h3, h4] at h <;>
    simp [linux_init_block, LinuxStatics.start, LinuxStatics.disabled, h1, h2, h3, h4]

/-- A call from the disabled statics takes the fallback and changes nothing. -/
theorem nanoTime_linux_disabled (arm : Bool) (env : LinuxEnv) :
    (native_nanoTime_linux arm LinuxStatics.disabled env).statics = LinuxStatics.disabled
      ∧ (native_nanoTime_linux arm LinuxStatics.disabled env).calls = [Syscall.gettimeofday]
      ∧ (native_nanoTime_linux arm LinuxStatics.disabled env).result
          = linux_fallback env.gettimeofday_status env.time := by
  simp [native_nanoTime_linux, linux_init_block, LinuxStatics.disabled]

/-- The Linux fallback value without any wrap. -/
theorem linux_fallback_nanos_exact (tv : Timeval)
    (hs1 : 0 ≤ tv.tv_sec) (hs2 : tv.tv_sec < 2147483648)
    (hu1 : 0 ≤ tv.tv_usec) (hu2 : tv.tv_usec < 1000000) :
    linux_fallback_nanos tv = 1000 * (tv.tv_sec * 1000000 + tv.tv_usec) := by
  unfold linux_fallback_nanos
  simp only []
  rw [toCInt_million, toJlong_of_range tv.tv_sec (by omega) (by omega),
    toJlong_of_range tv.tv_usec (by omega) (by omega),
    toJlong_of_range (tv.tv_sec * 1000000) (by omega) (by omega),
    toJlong_of_range (tv.tv_sec * 1000000 + tv.tv_usec) (by omega) (by omega),
    toJlong_of_range (1000 * (tv.tv_sec * 1000000 + tv.tv_usec)) (by omega) (by omega)]

/-- With a status other than `-1` the Linux fallback returns its value. -/
theorem linux_fallback_ok (status : Int) (tv : Timeval) (hst : status ≠ -1) :
    linux_fallback status tv = .ok (linux_fallback_nanos tv) := by
  have hb : (status != -1) = true := by simpa using hst
  simp [linux_fallback, c_ASSERT, hb]

/-- The Darwin fallback value without any wrap. -/
theorem darwin_fallback_exact (tv : Timeval)
    (hs1 : 0 ≤ tv.tv_sec) (hs2 : tv.tv_sec < 2147483648)
    (hu1 : 0 ≤ tv.tv_usec) (hu2 : tv.tv_usec < 1000000) :
    darwin_fallback tv = tv.tv_sec * 1000000000 + tv.tv_usec * 1000 := by
  unfold darwin_fallback toU64 toCInt
  rw [show (1000 * 1000 * 1000 : Int) = 1000000000 by norm_num,
    wrapS_32_of_range 1000000000 (by norm_num) (by norm_num),
    wrapS_32_of_range tv.tv_usec (by omega) (by omega),
    wrapS_32_of_range (tv.tv_usec * 1000) (by omega) (by omega),
    wrapU_64_of_range tv.tv_sec (by omega) (by omega),
    wrapU_64_of_range 1000000000 (by norm_num) (by norm_num),
    wrapU_64_of_range (tv.tv_usec * 1000) (by omega) (by omega),
    wrapU_64_of_range (tv.tv_sec * 1000000000) (by omega) (by omega),
    wrapU_64_of_range (tv.tv_sec * 1000000000 + tv.tv_usec * 1000) (by omega) (by omega)]
  exact toJlong_of_range _ (by omega) (by omega)

/-- The Linux fallback ends the process exactly when `gettimeofday` returned `-1`. -/
theorem linux_fallback_error_iff (status : Int) (tv : Timeval) :
    (∃ e, linux_fallback status tv = .error e) ↔ status = -1 := by
  unfold linux_fallback c_ASSERT
  by_cases h : status = -1
  · subst h
    simp only [bne_self_eq_false, Bool.false_eq_true, if_false, iff_true]
    exact ⟨Fatal.assertionFailed, trivial⟩
  · have hb : (status != -1) = true := by simpa using h
    simp [hb, h]

/-- Every call of a run that starts from the disabled statics takes the fallback. -/
theorem linux_run_disabled (arm : Bool) (envs : List LinuxEnv) :
    ∀ o ∈ linux_run arm LinuxStatics.disabled envs,
      o.statics = LinuxStatics.disabled ∧ o.calls = [Syscall.gettimeofday] := by
  induction envs with
  | nil => intro o ho; simp [linux_run] at ho
  | cons env rest ih =>
    intro o ho
    obtain ⟨h1, h2, _⟩ := nanoTime_linux_disabled arm env
    unfold linux_run at ho
    simp only at ho
    split at ho
    · simp only [List.mem_singleton] at ho
      subst ho
      exact ⟨h1, h2⟩
    · rw [h1] at ho
      rcases List.mem_cons.mp ho with ho | ho
      · subst ho
        exact ⟨h1, h2⟩
      · exact ih o ho

/-! ## Claims on `native_currentTimeMillis` -/

/-- C1: for every supported platform, every `tv_sec` in the signed 32-bit range
and every `tv_usec` with `0 ≤ tv_usec < 1000000`, `native_currentTimeMillis`
returns the exact integer `tv_sec * 1000 + tv_usec / 1000`, the division
truncating (the result times 1000 is at most `tv_usec` and misses it by less
than 1000, so nothing is rounded up), the value lies inside the signed 64-bit
range, and the reading (1700000000, 500000) gives 1700000000500. -/
theorem C1_currentTimeMillis_exact (os : OS) (tv : Timeval) (hos : os ≠ OS.other)
    (hs1 : -2147483648 ≤ tv.tv_sec) (hs2 : tv.tv_sec < 2147483648)
    (hu1 : 0 ≤ tv.tv_usec) (hu2 : tv.tv_usec < 1000000) :
    native_currentTimeMillis os tv = tv.tv_sec * 1000 + Int.tdiv tv.tv_usec 1000
      ∧ Int.tdiv tv.tv_usec 1000 * 1000 ≤ tv.tv_usec
      ∧ tv.tv_usec < Int.tdiv tv.tv_usec 1000 * 1000 + 1000
      ∧ -9223372036854775808 ≤ tv.tv_sec * 1000 + Int.tdiv tv.tv_usec 1000
      ∧ tv.tv_sec * 1000 + Int.tdiv tv.tv_usec 1000 < 9223372036854775808
      ∧ native_currentTimeMillis os ⟨1700000000, 500000⟩ = 1700000000500 := by
  have hd : Int.tdiv tv.tv_usec 1000 = tv.tv_usec / 1000 :=
    Int.tdiv_eq_ediv hu1 (by norm_num)
  rw [hd]
  refine ⟨currentTimeMillis_exact os tv hos hs1 hs2 hu1 hu2, by omega, by omega,
    by omega, by omega, ?_⟩
  rw [currentTimeMillis_exact os ⟨1700000000, 500000⟩ hos (by norm_num) (by norm_num)
    (by norm_num) (by norm_num)]
  norm_num

theorem C1_currentTimeMillis_exact_witness :
    native_currentTimeMillis OS.linux ⟨1700000000, 500999⟩
        = 1700000000 * 1000 + Int.tdiv 500999 1000
      ∧ native_currentTimeMillis OS.linux ⟨1700000000, 500999⟩ = 1700000000500 := by
  have h := C1_currentTimeMillis_exact OS.linux ⟨1700000000, 500999⟩ (by decide)
    (by norm_num) (by norm_num) (by norm_num) (by norm_num)
  refine ⟨h.1, ?_⟩
  rw [h.1]
  decide

/-- C2: `native_currentTimeMillis` is non-decreasing in the wall-clock reading:
for two readings with seconds in the signed 32-bit range and microseconds in
`0 .. 999999`, the first no later than the second in lexicographic order, the
value for the second is at least the value for the first. -/
theorem C2_currentTimeMillis_monotone (os : OS) (a b : Timeval) (hos : os ≠ OS.other)
    (has1 : -2147483648 ≤ a.tv_sec) (has2 : a.tv_sec < 2147483648)
    (hau1 : 0 ≤ a.tv_usec) (hau2 : a.tv_usec < 1000000)
    (hbs1 : -2147483648 ≤ b.tv_sec) (hbs2 : b.tv_sec < 2147483648)
    (hbu1 : 0 ≤ b.tv_usec) (hbu2 : b.tv_usec < 1000000)
    (hle : a.tv_sec < b.tv_sec ∨ (a.tv_sec = b.tv_sec ∧ a.tv_usec ≤ b.tv_usec)) :
    native_currentTimeMillis os a ≤ native_currentTimeMillis os b := by
  rw [currentTimeMillis_exact os a hos has1 has2 hau1 hau2,
    currentTimeMillis_exact os b hos hbs1 hbs2 hbu1 hbu2]
  omega

theorem C2_currentTimeMillis_monotone_witness :
    native_currentTimeMillis OS.darwin ⟨10, 999999⟩
      ≤ native_currentTimeMillis OS.darwin ⟨11, 0⟩ :=
  C2_currentTimeMillis_monotone OS.darwin ⟨10, 999999⟩ ⟨11, 0⟩ (by decide)
    (by norm_num) (by norm_num) (by norm_num) (by norm_num)
    (by norm_num) (by norm_num) (by norm_num) (by norm_num)
    (Or.inl (by norm_num))

/-! ## Claims on the Linux branch of `native_nanoTime` -/

/-- C3, as stated, fails at the edge of its range: with a resolved
`clock_gettime_func`, the readings (9223372036 s, 0 ns) and
(9223372036 s, 999999999 ns) are in lexicographic order and the 64-bit product
`9223372036 * 1000000000` does not wrap, yet adding the nanoseconds of the
second reading wraps: the second call returns a negative value, below the
first call's result and different from `tv_sec * 1000000000 + tv_nsec`. -/
theorem C3_counterexample_sum_wraps :
    linuxPrimary LinuxStatics.start (linuxEnvReading ⟨9223372036, 0⟩)
      ∧ (0 : Int) ≤ 9223372036 ∧ (9223372036 : Int) * 1000000000 < 2 ^ 63
      ∧ Timespec.le ⟨9223372036, 0⟩ ⟨9223372036, 999999999⟩
      ∧ (native_nanoTime_linux false LinuxStatics.start
            (linuxEnvReading ⟨9223372036, 0⟩)).result = .ok 9223372036000000000
      ∧ (native_nanoTime_linux false
            (native_nanoTime_linux false LinuxStatics.start
              (linuxEnvReading ⟨9223372036, 0⟩)).statics
            (linuxEnvReading ⟨9223372036, 999999999⟩)).result = .ok (-9223372036709551617)
      ∧ ¬ ((9223372036000000000 : Int) ≤ -9223372036709551617)
      ∧ (-9223372036709551617 : Int) ≠ 9223372036 * 1000000000 + 999999999 := by
  refine ⟨by decide, by decide, by decide, by decide, rfl, rfl, by decide, by decide⟩

/-- C3, amended: on the Linux primary path (the first call resolves and probes
`clock_gettime` successfully, or an earlier call did), for two successive calls
whose monotonic readings have `0 ≤ tv_nsec < 1000000000`, `0 ≤ tv_sec` and a
sum `tv_sec * 1000000000 + tv_nsec` below `2 ^ 63`, each call returns that sum,
and readings in lexicographic order give results in the same order. -/
theorem C3_nanoTime_linux_monotone (arm : Bool) (st : LinuxStatics) (e1 e2 : LinuxEnv)
    (hpath : linuxPrimary st e1)
    (hs1 : 0 ≤ e1.tp.tv_sec) (hn1 : 0 ≤ e1.tp.tv_nsec) (hm1 : e1.tp.tv_nsec < 1000000000)
    (hfit1 : e1.tp.tv_sec * 1000000000 + e1.tp.tv_nsec < 2 ^ 63)
    (hs2 : 0 ≤ e2.tp.tv_sec) (hn2 : 0 ≤ e2.tp.tv_nsec) (hm2 : e2.tp.tv_nsec < 1000000000)
    (hfit2 : e2.tp.tv_sec * 1000000000 + e2.tp.tv_nsec < 2 ^ 63)
    (hle : Timespec.le e1.tp e2.tp) :
    (native_nanoTime_linux arm st e1).result
        = .ok (e1.tp.tv_sec * 1000000000 + e1.tp.tv_nsec)
      ∧ (native_nanoTime_linux arm (native_nanoTime_linux arm st e1).statics e2).result
        = .ok (e2.tp.tv_sec * 1000000000 + e2.tp.tv_nsec)
      ∧ e1.tp.tv_sec * 1000000000 + e1.tp.tv_nsec
        ≤ e2.tp.tv_sec * 1000000000 + e2.tp.tv_nsec := by
  obtain ⟨r1, f1, i1⟩ := nanoTime_linux_primary arm st e1 hpath
  obtain ⟨r2, _, _⟩ := nanoTime_linux_primary arm _ e2 (Or.inr ⟨i1, f1⟩)
  rw [r1, r2, linux_monotonic_exact arm e1.tp hs1 hn1 hm1 (by norm_num at hfit1; exact hfit1),
    linux_monotonic_exact arm e2.tp hs2 hn2 hm2 (by norm_num at hfit2; exact hfit2)]
  refine ⟨rfl, rfl, ?_⟩
  unfold Timespec.le at hle
  omega

theorem C3_nanoTime_linux_monotone_witness :
    (native_nanoTime_linux false LinuxStatics.start (linuxEnvReading ⟨7, 999999999⟩)).result
        = .ok (7 * 1000000000 + 999999999)
      ∧ (native_nanoTime_linux false
            (native_nanoTime_linux false LinuxStatics.start
              (linuxEnvReading ⟨7, 999999999⟩)).statics
            (linuxEnvReading ⟨8, 0⟩)).result = .ok (8 * 1000000000 + 0)
      ∧ (7 * 1000000000 + 999999999 : Int) ≤ 8 * 1000000000 + 0 :=
  C3_nanoTime_linux_monotone false LinuxStatics.start
    (linuxEnvReading ⟨7, 999999999⟩) (linuxEnvReading ⟨8, 0⟩)
    (by decide) (by decide) (by decide) (by decide) (by decide)
    (by decide) (by decide) (by decide) (by decide) (by decide)

/-- C6: if on the first call both `dlopen` attempts fail, or `dlsym` fails, or
the probe returns non-zero, the call takes the fallback and leaves the statics
at (`initialized = 1`, `clock_gettime_func = NULL`); every call from these
statics leaves them unchanged, performs `gettimeofday` and no other system call
(no `dlopen`, `dlsym` or probe), and its result is the `gettimeofday` fallback:
the value `1000 * usecs` whenever `gettimeofday` did not report `-1`. The same
holds along every sequence of later calls. -/
theorem C6_linux_fallback_idempotent (arm : Bool) (env : LinuxEnv)
    (hfail : linuxPrimaryFails env) :
    (native_nanoTime_linux arm LinuxStatics.start env).statics
        = { clock_gettime_func := 0, initialized := 1 }
      ∧ (native_nanoTime_linux arm LinuxStatics.start env).result
        = linux_fallback env.gettimeofday_status env.time
      ∧ (∀ later : LinuxEnv,
          (native_nanoTime_linux arm { clock_gettime_func := 0, initialized := 1 } later).statics
              = { clock_gettime_func := 0, initialized := 1 }
            ∧ (native_nanoTime_linux arm { clock_gettime_func := 0, initialized := 1 } later).calls
              = [Syscall.gettimeofday]
            ∧ (native_nanoTime_linux arm { clock_gettime_func := 0, initialized := 1 } later).result
              = linux_fallback later.gettimeofday_status later.time
            ∧ (later.gettimeofday_status ≠ -1 →
                (native_nanoTime_linux arm
                  { clock_gettime_func := 0, initialized := 1 } later).result
                  = .ok (linux_fallback_nanos later.time)))
      ∧ (∀ (envs : List LinuxEnv),
          ∀ o ∈ linux_run arm (native_nanoTime_linux arm LinuxStatics.start env).statics envs,
            o.statics = { clock_gettime_func := 0, initialized := 1 }
              ∧ o.calls = [Syscall.gettimeofday]) := by
  have hinit := linux_init_block_fails env hfail
  have hst : (native_nanoTime_linux arm LinuxStatics.start env).statics
      = LinuxStatics.disabled := by
    simp [native_nanoTime_linux, hinit, LinuxStatics.disabled]
  have hres : (native_nanoTime_linux arm LinuxStatics.start env).result
      = linux_fallback env.gettimeofday_status env.time := by
    simp [native_nanoTime_linux, hinit, LinuxStatics.disabled]
  refine ⟨hst, hres, ?_, ?_⟩
  · intro later
    obtain ⟨h1, h2, h3⟩ := nanoTime_linux_disabled arm later
    refine ⟨h1, h2, h3, fun hok => ?_⟩
    exact h3.trans (linux_fallback_ok _ _ hok)
  · intro envs
    rw [hst]
    exact linux_run_disabled arm envs

theorem C6_linux_fallback_idempotent_witness :
    (native_nanoTime_linux false LinuxStatics.start (linuxEnvNoLibrary 0 ⟨5, 7⟩)).statics
        = { clock_gettime_func := 0, initialized := 1 }
      ∧ (native_nanoTime_linux false { clock_gettime_func := 0, initialized := 1 }
            (linuxEnvNoLibrary 0 ⟨6, 8⟩)).calls = [Syscall.gettimeofday] := by
  have h := C6_linux_fallback_idempotent false (linuxEnvNoLibrary 0 ⟨5, 7⟩) (by decide)
  exact ⟨h.1, (h.2.2.1 (linuxEnvNoLibrary 0 ⟨6, 8⟩)).2.1⟩

/-! ## Claims on the wall-clock fallback -/

/-- C7: evaluation at the failing input. On Darwin, on a first call that
reaches the fallback (the call performs `mach_timebase_info`, then
`gettimeofday`) with `gettimeofday` reporting `-1`, the call still returns a
value computed from `tv`: the status is discarded and nothing is asserted. On
Linux the fallback ends the process exactly when the status is `-1`. -/
theorem C7_darwin_fallback_returns_on_failure (F : DoubleArith) (tv : Timeval)
    (numer denom raw : Nat) (arm : Bool) (env : LinuxEnv) :
    (native_nanoTime_darwin F (DarwinStatics.start F)
          (darwinEnv KERN_SUCCESS numer denom raw (-1) tv)).calls
        = [Syscall.mach_timebase_info, Syscall.gettimeofday]
      ∧ (native_nanoTime_darwin F (DarwinStatics.start F)
          (darwinEnv KERN_SUCCESS numer denom raw (-1) tv)).result
        = .ok (darwin_fallback tv)
      ∧ ((∃ e, (native_nanoTime_linux arm LinuxStatics.disabled env).result = .error e)
          ↔ env.gettimeofday_status = -1) := by
  refine ⟨?_, ?_, ?_⟩
  · simp [native_nanoTime_darwin, darwin_init_block, DarwinStatics.start, darwinEnv,
      F.neZero_zero]
  · simp [native_nanoTime_darwin, darwin_init_block, DarwinStatics.start, darwinEnv,
      F.neZero_zero]
  · rw [(nanoTime_linux_disabled arm env).2.2]
    exact linux_fallback_error_iff _ _

/-- C8: for every `gettimeofday` reading with `0 ≤ tv_sec < 2 ^ 31` and
`0 ≤ tv_usec < 1000000`, the Linux fallback value and the Darwin fallback value
both equal the exact integer `tv_sec * 10 ^ 9 + tv_usec * 1000` of the
specification, and so equal each other. -/
theorem C8_fallback_nanos_agree (tv : Timeval)
    (hs1 : 0 ≤ tv.tv_sec) (hs2 : tv.tv_sec < 2 ^ 31)
    (hu1 : 0 ≤ tv.tv_usec) (hu2 : tv.tv_usec < 1000000) :
    linux_fallback_nanos tv = specWallClockNanos tv
      ∧ darwin_fallback tv = specWallClockNanos tv
      ∧ linux_fallback_nanos tv = darwin_fallback tv := by
  have h31 : tv.tv_sec < 2147483648 := by norm_num at hs2; exact hs2
  have hl := linux_fallback_nanos_exact tv hs1 h31 hu1 hu2
  have hd := darwin_fallback_exact tv hs1 h31 hu1 hu2
  have hspec : specWallClockNanos tv = tv.tv_sec * 1000000000 + tv.tv_usec * 1000 := by
    unfold specWallClockNanos
    norm_num
  rw [hl, hd, hspec]
  refine ⟨by ring, rfl, by ring⟩

theorem C8_fallback_nanos_agree_witness :
    linux_fallback_nanos ⟨1700000000, 999999⟩ = specWallClockNanos ⟨1700000000, 999999⟩
      ∧ darwin_fallback ⟨1700000000, 999999⟩ = specWallClockNanos ⟨1700000000, 999999⟩
      ∧ linux_fallback_nanos ⟨1700000000, 999999⟩ = darwin_fallback ⟨1700000000, 999999⟩ :=
  C8_fallback_nanos_agree ⟨1700000000, 999999⟩ (by decide) (by decide) (by decide) (by decide)

/-! ## Lemmas on the Darwin branch -/

/-- Whatever path a Darwin call returns through, the statics it leaves are
those the initialisation block produced. -/
theorem nanoTime_darwin_statics (F : DoubleArith) (st : DarwinStatics F) (env : DarwinEnv) :
    (native_nanoTime_darwin F st env).statics = (darwin_init_block F st env).1 := by
  unfold native_nanoTime_darwin
  simp only []
  split_ifs <;> rfl

/-- A Darwin call that finds `timebase.denom` and `failed` both zero starts by
querying the ratio. -/
theorem nanoTime_darwin_queries (F : DoubleArith) (st : DarwinStatics F) (env : DarwinEnv)
    (hd : st.timebase.denom = 0) (hf : st.failed = 0) :
    (native_nanoTime_darwin F st env).calls.head? = some Syscall.mach_timebase_info := by
  unfold native_nanoTime_darwin darwin_init_block
  simp only [hd, hf, if_true]
  split_ifs <;> rfl

/-- With the exact-ratio stand-in for `double`, the scaling path turns 1000
ticks at ratio 1/2 into 500; the call reaches it when the ratio query reports
a failure and `temp` holds 1/2. -/
theorem nanoTime_darwin_scaled_ratioArith :
    (native_nanoTime_darwin ratioArith (DarwinStatics.start ratioArith)
      (darwinEnv KERN_FAILURE 1 2 1000 0 ⟨5, 7⟩)).result = .ok 500 := by
  rfl

/-! ## Claims on the Darwin branch of `native_nanoTime` -/

/-- C4: evaluation at the failing input. On a first call whose ratio query
returns `KERN_SUCCESS`, with ratio 1/1 as with ratio 1/2 and a tick counter
reading 1000, the call takes the `else` branch of the status test: it records
`failed = 1`, leaves `timebase = { 0, 0 }`, never reads the tick counter and
returns the wall-clock value (5000007000 for the reading 5 s, 7 µs) instead of
1000 or 500; a later call does the same without a query. -/
theorem C4_darwin_success_takes_fallback (F : DoubleArith) :
    (native_nanoTime_darwin F (DarwinStatics.start F)
          (darwinEnv KERN_SUCCESS 1 1 1000 0 ⟨5, 7⟩)).calls
        = [Syscall.mach_timebase_info, Syscall.gettimeofday]
      ∧ (native_nanoTime_darwin F (DarwinStatics.start F)
          (darwinEnv KERN_SUCCESS 1 1 1000 0 ⟨5, 7⟩)).result = .ok 5000007000
      ∧ (native_nanoTime_darwin F (DarwinStatics.start F)
          (darwinEnv KERN_SUCCESS 1 2 1000 0 ⟨5, 7⟩)).result = .ok 5000007000
      ∧ (native_nanoTime_darwin F (DarwinStatics.start F)
          (darwinEnv KERN_SUCCESS 1 1 1000 0 ⟨5, 7⟩)).statics.timebase
        = { numer := 0, denom := 0 }
      ∧ (native_nanoTime_darwin F (DarwinStatics.start F)
          (darwinEnv KERN_SUCCESS 1 1 1000 0 ⟨5, 7⟩)).statics.failed = 1
      ∧ (native_nanoTime_darwin F
          (native_nanoTime_darwin F (DarwinStatics.start F)
            (darwinEnv KERN_SUCCESS 1 1 1000 0 ⟨5, 7⟩)).statics
          (darwinEnv KERN_SUCCESS 1 1 2000 0 ⟨5, 8⟩)).calls = [Syscall.gettimeofday]
      ∧ (native_nanoTime_darwin F
          (native_nanoTime_darwin F (DarwinStatics.start F)
            (darwinEnv KERN_SUCCESS 1 1 1000 0 ⟨5, 7⟩)).statics
          (darwinEnv KERN_SUCCESS 1 1 2000 0 ⟨5, 8⟩)).result = .ok 5000008000 := by
  have h7 : darwin_fallback ⟨5, 7⟩ = 5000007000 := by decide
  have h8 : darwin_fallback ⟨5, 8⟩ = 5000008000 := by decide
  refine ⟨?_, ?_, ?_, ?_, ?_, ?_, ?_⟩ <;>
    simp [native_nanoTime_darwin, darwin_init_block, DarwinStatics.start, darwinEnv,
      KERN_SUCCESS, F.neZero_zero, h7, h8]

/-- C5: evaluation at the failing input. On a first call whose ratio query
returns `KERN_FAILURE` while `temp` holds 1/1, the call takes the `then` branch
of the status test: it stores `temp` in `timebase`, leaves `failed = 0`, reads
the tick counter and returns it (1000), not the wall-clock value 5000007000 of
the reading 5 s, 7 µs. When `temp` holds 0/0 instead, `timebase.denom` and
`failed` are both still zero after the call, and the next call queries the
ratio again. -/
theorem C5_darwin_failure_uses_ticks (F : DoubleArith) :
    (native_nanoTime_darwin F (DarwinStatics.start F)
          (darwinEnv KERN_FAILURE 1 1 1000 0 ⟨5, 7⟩)).calls
        = [Syscall.mach_timebase_info, Syscall.mach_absolute_time]
      ∧ (native_nanoTime_darwin F (DarwinStatics.start F)
          (darwinEnv KERN_FAILURE 1 1 1000 0 ⟨5, 7⟩)).result = .ok 1000
      ∧ darwin_fallback ⟨5, 7⟩ = 5000007000
      ∧ (native_nanoTime_darwin F (DarwinStatics.start F)
          (darwinEnv KERN_FAILURE 1 1 1000 0 ⟨5, 7⟩)).statics.failed = 0
      ∧ (native_nanoTime_darwin F (DarwinStatics.start F)
          (darwinEnv KERN_FAILURE 0 0 1000 0 ⟨5, 7⟩)).statics.timebase.denom = 0
      ∧ (native_nanoTime_darwin F (DarwinStatics.start F)
          (darwinEnv KERN_FAILURE 0 0 1000 0 ⟨5, 7⟩)).statics.failed = 0
      ∧ (native_nanoTime_darwin F
          (native_nanoTime_darwin F (DarwinStatics.start F)
            (darwinEnv KERN_FAILURE 0 0 1000 0 ⟨5, 7⟩)).statics
          (darwinEnv KERN_FAILURE 0 0 2000 0 ⟨5, 8⟩)).calls.head?
        = some Syscall.mach_timebase_info := by
  have h7 : darwin_fallback ⟨5, 7⟩ = 5000007000 := by decide
  have hraw : toJlong (toU64 1000) = 1000 := by decide
  refine ⟨?_, ?_, h7, ?_, ?_, ?_, ?_⟩
  · simp [native_nanoTime_darwin, darwin_init_block, DarwinStatics.start, darwinEnv,
      KERN_SUCCESS, KERN_FAILURE]
  · simp [native_nanoTime_darwin, darwin_init_block, DarwinStatics.start, darwinEnv,
      KERN_SUCCESS, KERN_FAILURE, hraw]
  · simp [native_nanoTime_darwin, darwin_init_block, DarwinStatics.start, darwinEnv,
      KERN_SUCCESS, KERN_FAILURE]
  · rw [nanoTime_darwin_statics]
    simp [darwin_init_block, DarwinStatics.start, darwinEnv, KERN_SUCCESS, KERN_FAILURE]
  · rw [nanoTime_darwin_statics]
    simp [darwin_init_block, DarwinStatics.start, darwinEnv, KERN_SUCCESS, KERN_FAILURE]
  · apply nanoTime_darwin_queries
    · rw [nanoTime_darwin_statics]
      simp [darwin_init_block, DarwinStatics.start, darwinEnv, KERN_SUCCESS, KERN_FAILURE]
    · rw [nanoTime_darwin_statics]
      simp [darwin_init_block, DarwinStatics.start, darwinEnv, KERN_SUCCESS, KERN_FAILURE]

/-! ## Lemmas on the Windows emulation -/

theorem EPOCH_eq : EPOCH = 116444736000000000 := by
  decide

/-- The nanosecond field of the emulated `clock_gettime`, for a `wintime` at or
after the Unix epoch. -/
theorem clock_gettime_windows_nsec (timeBits longBits : Nat) (ft : Int) (hlong : 32 ≤ longBits)
    (h1 : 116444736000000000 ≤ ft) (h2 : ft < 9223372036854775808) :
    (clock_gettime_windows timeBits longBits ft).tv_nsec
      = (ft - 116444736000000000) % 10000000 * 100 := by
  have hp := two_pow_31_le longBits hlong
  unfold clock_gettime_windows
  simp only []
  rw [wrapS_64_of_range ft (by omega) (by omega),
    wrapS_64_of_range 116444736000000000 (by norm_num) (by norm_num),
    wrapS_64_of_range 10000000 (by norm_num) (by norm_num),
    wrapS_64_of_range (ft - 116444736000000000) (by omega) (by omega),
    Int.tmod_eq_emod (by omega) (by norm_num),
    wrapS_64_of_range _ (by omega) (by omega)]
  exact wrapS_of_range longBits (by omega) _ (by omega) (by omega)

/-- The fields the emulated `gettimeofday` stores, for a `FILETIME` at or after
the Unix epoch whose seconds count fits the type `long`. -/
theorem gettimeofday_windows_fields (longBits : Nat) (t : WindowsTime) (hlong : 32 ≤ longBits)
    (hlo : t.dwLowDateTime < 2 ^ 32) (hhi : t.dwHighDateTime < 2 ^ 32)
    (hms : t.wMilliseconds < 2 ^ 16)
    (hepoch : 116444736000000000 ≤ t.fileTime)
    (hfit : (t.fileTime - 116444736000000000) / 10000000 < 2 ^ (longBits - 1)) :
    (gettimeofday_windows longBits t).tv_sec = (t.fileTime - 116444736000000000) / 10000000
      ∧ (gettimeofday_windows longBits t).tv_usec = (t.wMilliseconds : Int) * 1000 := by
  have hp := two_pow_31_le longBits hlong
  have hlo' : (t.dwLowDateTime : Int) < 4294967296 := by
    have : t.dwLowDateTime < 4294967296 := by norm_num at hlo; exact hlo
    exact_mod_cast this
  have hhi' : (t.dwHighDateTime : Int) < 4294967296 := by
    have : t.dwHighDateTime < 4294967296 := by norm_num at hhi; exact hhi
    exact_mod_cast this
  have hms' : (t.wMilliseconds : Int) < 65536 := by
    have : t.wMilliseconds < 65536 := by norm_num at hms; exact hms
    exact_mod_cast this
  have hlo0 : (0 : Int) ≤ t.dwLowDateTime := Int.natCast_nonneg _
  have hhi0 : (0 : Int) ≤ t.dwHighDateTime := Int.natCast_nonneg _
  have hms0 : (0 : Int) ≤ t.wMilliseconds := Int.natCast_nonneg _
  unfold WindowsTime.fileTime at hepoch hfit ⊢
  norm_num at hepoch hfit ⊢
  unfold gettimeofday_windows toU64 toCInt
  simp only [EPOCH_eq]
  norm_num
  rw [wrapU_64_of_range (t.dwLowDateTime : Int) hlo0 (by omega),
    wrapU_64_of_range (t.dwHighDateTime : Int) hhi0 (by omega),
    wrapU_64_of_range ((t.dwHighDateTime : Int) * 4294967296) (by omega) (by omega),
    wrapU_64_of_range ((t.dwLowDateTime : Int) + (t.dwHighDateTime : Int) * 4294967296)
      (by omega) (by omega),
    wrapU_64_of_range _ (by omega) (by omega),
    wrapU_64_of_range 10000000 (by norm_num) (by norm_num),
    Int.tdiv_eq_ediv (by omega) (by norm_num),
    wrapS_32_of_range (t.wMilliseconds : Int) (by omega) (by omega),
    wrapS_32_of_range ((t.wMilliseconds : Int) * 1000) (by omega) (by omega)]
  constructor
  · exact wrapS_of_range longBits (by omega) _ (by omega) (by omega)
  · exact wrapS_of_range longBits (by omega) _ (by omega) (by omega)

/-! ## Claims on the Windows branch -/

/-- C9: `native_nanoTime` on Windows returns only the sub-second field of the
emulated `clock_gettime`. For every `wintime` value `ft` of type `__int64` with
`ft ≥ 116444736000000000`, the result is
`((ft - 116444736000000000) % 10000000) * 100`, the `tv_nsec` field; it is a
multiple of 100 between 0 and 999999900; the seconds
`(ft - 116444736000000000) / 10000000` go to `tv_sec` and are no part of the
result, which stays the same when whole seconds are added to `ft`. -/
theorem C9_nanoTime_windows_subsecond (timeBits longBits : Nat) (ft : Int)
    (hlong : 32 ≤ longBits) (h1 : 116444736000000000 ≤ ft) (h2 : ft < 2 ^ 63) :
    native_nanoTime_windows timeBits longBits ft
        = (ft - 116444736000000000) % 10000000 * 100
      ∧ native_nanoTime_windows timeBits longBits ft
        = (clock_gettime_windows timeBits longBits ft).tv_nsec
      ∧ (100 : Int) ∣ native_nanoTime_windows timeBits longBits ft
      ∧ 0 ≤ native_nanoTime_windows timeBits longBits ft
      ∧ native_nanoTime_windows timeBits longBits ft ≤ 999999900
      ∧ (clock_gettime_windows 64 longBits ft).tv_sec
        = (ft - 116444736000000000) / 10000000
      ∧ ft - 116444736000000000
        = (ft - 116444736000000000) / 10000000 * 10000000
          + native_nanoTime_windows timeBits longBits ft / 100
      ∧ (∀ k : Int, 0 ≤ k → ft + k * 10000000 < 2 ^ 63 →
          native_nanoTime_windows timeBits longBits (ft + k * 10000000)
            = native_nanoTime_windows timeBits longBits ft) := by
  have h2' : ft < 9223372036854775808 := by norm_num at h2; exact h2
  have hnsec := clock_gettime_windows_nsec timeBits longBits ft hlong h1 h2'
  have hval : native_nanoTime_windows timeBits longBits ft
      = (ft - 116444736000000000) % 10000000 * 100 := by
    unfold native_nanoTime_windows
    rw [hnsec]
    exact toJlong_of_range _ (by omega) (by omega)
  have hsec : (clock_gettime_windows 64 longBits ft).tv_sec
      = (ft - 116444736000000000) / 10000000 := by
    unfold clock_gettime_windows
    simp only []
    rw [wrapS_64_of_range ft (by omega) (by omega),
      wrapS_64_of_range 116444736000000000 (by norm_num) (by norm_num),
      wrapS_64_of_range 10000000 (by norm_num) (by norm_num),
      wrapS_64_of_range (ft - 116444736000000000) (by omega) (by omega),
      Int.tdiv_eq_ediv (by omega) (by norm_num)]
    exact wrapS_64_of_range _ (by omega) (by omega)
  refine ⟨hval, by rw [hval, hnsec], ?_, ?_, ?_, hsec, ?_, ?_⟩
  · rw [hval]
    exact Dvd.intro_left _ rfl
  · rw [hval]
    omega
  · rw [hval]
    omega
  · rw [hval]
    omega
  · intro k hk hfit
    have hfit' : ft + k * 10000000 < 9223372036854775808 := by norm_num at hfit; exact hfit
    have hnsec' := clock_gettime_windows_nsec timeBits longBits (ft + k * 10000000) hlong
      (by omega) hfit'
    rw [hval]
    unfold native_nanoTime_windows
    rw [hnsec']
    rw [toJlong_of_range _ (by omega) (by omega)]
    omega

theorem C9_nanoTime_windows_subsecond_witness :
    native_nanoTime_windows 64 32 133444736005000000
      = (133444736005000000 - 116444736000000000) % 10000000 * 100 :=
  (C9_nanoTime_windows_subsecond 64 32 133444736005000000 (by decide) (by decide)
    (by decide)).1

/-- C10, as stated, fails where `long` has 32 bits, as it has on Windows: the
`FILETIME` 137919572480000000 (2038-01-19 03:14:08 UTC) is past the epoch
constant and its seconds count is 2147483648, yet the `(long)` cast stores
`tv_sec = -2147483648`, and `native_currentTimeMillis` returns
-2147483648000. -/
theorem C10_counterexample_long_wraps :
    (WindowsTime.mk 3577643008 32111902 0).fileTime = 137919572480000000
      ∧ (116444736000000000 : Int) ≤ (WindowsTime.mk 3577643008 32111902 0).fileTime
      ∧ ((WindowsTime.mk 3577643008 32111902 0).fileTime - 116444736000000000) / 10000000
        = 2147483648
      ∧ (gettimeofday_windows windowsLongBits (WindowsTime.mk 3577643008 32111902 0)).tv_sec
        = -2147483648
      ∧ (gettimeofday_windows windowsLongBits (WindowsTime.mk 3577643008 32111902 0)).tv_sec
        ≠ ((WindowsTime.mk 3577643008 32111902 0).fileTime - 116444736000000000) / 10000000
      ∧ native_currentTimeMillis_windows windowsLongBits (WindowsTime.mk 3577643008 32111902 0)
        = -2147483648000 := by
  refine ⟨by decide, by decide, by decide, by decide, by decide, by decide⟩

/-- C10, amended: the constant 116444736000000000 is the number of 100 ns
intervals from 1601-01-01 to 1970-01-01 (134774 days of 86400 s), and for every
64-bit `FILETIME` value `ft = dwLowDateTime + dwHighDateTime * 2 ^ 32` at or
past that constant whose seconds count `(ft - 116444736000000000) / 10000000`
fits the type `long` (below `2 ^ 31` where `long` has 32 bits), the emulated
`gettimeofday` stores that count in `tv_sec` and `wMilliseconds * 1000` in
`tv_usec`, so `native_currentTimeMillis` returns `tv_sec * 1000 + wMilliseconds`;
a `FILETIME` equal to the constant gives `tv_sec = 0`. -/
theorem C10_gettimeofday_windows_epoch (longBits : Nat) (t : WindowsTime)
    (hlong : 32 ≤ longBits)
    (hlo : t.dwLowDateTime < 2 ^ 32) (hhi : t.dwHighDateTime < 2 ^ 32)
    (hms : t.wMilliseconds < 2 ^ 16)
    (hepoch : 116444736000000000 ≤ t.fileTime)
    (hfit : (t.fileTime - 116444736000000000) / 10000000 < 2 ^ (longBits - 1)) :
    EPOCH = 116444736000000000
      ∧ (116444736000000000 : Int) = 134774 * 86400 * 10 ^ 7
      ∧ (gettimeofday_windows longBits t).tv_sec
        = (t.fileTime - 116444736000000000) / 10000000
      ∧ (gettimeofday_windows longBits t).tv_usec = (t.wMilliseconds : Int) * 1000
      ∧ native_currentTimeMillis_windows longBits t
        = (gettimeofday_windows longBits t).tv_sec * 1000 + (t.wMilliseconds : Int)
      ∧ (t.fileTime = 116444736000000000 → (gettimeofday_windows longBits t).tv_sec = 0) := by
  obtain ⟨hsec, husec⟩ := gettimeofday_windows_fields longBits t hlong hlo hhi hms hepoch hfit
  have hlo' : (t.dwLowDateTime : Int) < 4294967296 := by
    have : t.dwLowDateTime < 4294967296 := by norm_num at hlo; exact hlo
    exact_mod_cast this
  have hhi' : (t.dwHighDateTime : Int) < 4294967296 := by
    have : t.dwHighDateTime < 4294967296 := by norm_num at hhi; exact hhi
    exact_mod_cast this
  have hms' : (t.wMilliseconds : Int) < 65536 := by
    have : t.wMilliseconds < 65536 := by norm_num at hms; exact hms
    exact_mod_cast this
  have hms0 : (0 : Int) ≤ t.wMilliseconds := Int.natCast_nonneg _
  have hft : t.fileTime < 18446744073709551616 := by
    have hlo0 : (0 : Int) ≤ t.dwLowDateTime := Int.natCast_nonneg _
    unfold WindowsTime.fileTime
    norm_num
    omega
  refine ⟨EPOCH_eq, by norm_num, hsec, husec, ?_, ?_⟩
  · unfold native_currentTimeMillis_windows native_currentTimeMillis
    simp only [OS.hasGettimeofday, if_true]
    rw [husec, hsec]
    generalize t.fileTime = ft at hepoch hft
    rw [toJlong_of_range ((ft - 116444736000000000) / 10000000) (by omega) (by omega),
      toJlong_of_range ((t.wMilliseconds : Int) * 1000) (by omega) (by omega),
      toJlong_of_range ((ft - 116444736000000000) / 10000000 * 1000) (by omega) (by omega),
      Int.tdiv_eq_ediv (by omega) (by norm_num)]
    rw [toJlong_of_range _ (by omega) (by omega)]
    omega
  · intro h
    rw [hsec, h]
    norm_num

theorem C10_gettimeofday_windows_epoch_witness :
    (gettimeofday_windows 32 (WindowsTime.mk 3334032192 31070023 500)).tv_sec
        = ((WindowsTime.mk 3334032192 31070023 500).fileTime - 116444736000000000) / 10000000
      ∧ native_currentTimeMillis_windows 32 (WindowsTime.mk 3334032192 31070023 500)
        = 1700000000500 := by
  have h := C10_gettimeofday_windows_epoch 32 (WindowsTime.mk 3334032192 31070023 500)
    (by decide) (by decide) (by decide) (by decide) (by decide) (by decide)
  refine ⟨h.2.2.1, ?_⟩
  rw [h.2.2.2.2.1, h.2.2.1]
  decide

end MaxineTime
